import Mathlib

/-!
Verification development for the statexec process-lifecycle controller,
sampling loop, synchronization handshake and output serializer
(src/main.go and src/collectors).  Go code is shallowly embedded:
pure fragments become Lean functions, the concurrent controller/loop
pair becomes an explicit event-step relation, Go maps become
association lists whose runtime iteration order is abstracted by an
order oracle, and float64 values are carried as their %f renderings
(only moved around, never computed with).
-/

namespace Statexec

/-! ## Label handling (src/main.go, addLabel / parse paths) -/

/-- The forbidden label keys of addLabel (src/main.go:333):
`[]string{"instance", "job", "cpu", "mode", "interface"}`. -/
def forbiddenKeys : List String := ["instance", "job", "cpu", "mode", "interface"]

/-- `regexp.MustCompile("[^a-zA-Z0-9]").ReplaceAllString(key, "_")`
(src/main.go:336): every character outside [a-zA-Z0-9] becomes an underscore. -/
def normalizeLabelKey (key : String) : String :=
  ⟨key.data.map (fun c => if c.isAlpha || c.isDigit then c else '_')⟩

/-- strings.ToLower (per-character; the label keys in play are ASCII, where
Go's Unicode lowering and ASCII lowering agree). -/
def lowerAscii (s : String) : String :=
  ⟨s.data.map Char.toLower⟩

/-- Go `m[k] = v` on a map represented as an association list in insertion
order: overwrite the binding if the key is present, else append. -/
def mapInsert (m : List (String × String)) (k v : String) : List (String × String) :=
  if m.any (fun kv => kv.1 == k) then
    m.map (fun kv => if kv.1 == k then (k, v) else kv)
  else
    m ++ [(k, v)]

/-- addLabel (src/main.go:331-347).  `none` is the fatal-error path
(`os.Exit(1)` after "Override label %s is forbidden"); `some` returns the
updated extraLabels map.  Note the source compares the underscore-normalized
key against forbiddenKeys case-SENSITIVELY, and lowercases only the key it
stores. -/
def addLabel (labels : List (String × String)) (key value : String) :
    Option (List (String × String)) :=
  let safeKey := normalizeLabelKey key
  if safeKey ∈ forbiddenKeys then none
  else some (mapInsert labels (lowerAscii safeKey) value)

/-- The six reserved names of claim C1 and spec section 8 (the code's
forbiddenKeys list has only five: "disk" is absent). -/
def reservedSixNames : List String :=
  ["instance", "job", "cpu", "mode", "interface", "disk"]

/-- The rejection criterion asserted by claim C1: the key,
underscore-normalized and compared case-insensitively, equals one of the six
reserved names. -/
def claimReject (key : String) : Bool :=
  lowerAscii (normalizeLabelKey key) ∈ reservedSixNames

/-! ## Data model of snapshots and annotations (src/main.go, src/collectors) -/

/-- collectors/cpuCollector.go CpuMetrics.  CpuTimePerMode is a Go
map[string]float64: association list in insertion order; float64 values are
carried as their fmt %f rendering. -/
structure CpuMetrics where
  Cpu : String
  CpuTimePerMode : List (String × String)
  deriving DecidableEq, Repr

/-- collectors/memoryCollector.go MemoryMetrics (uint64 fields as Nat,
UsedPercent float64 as its %f rendering). -/
structure MemoryMetrics where
  Total : Nat
  Available : Nat
  Used : Nat
  Free : Nat
  Buffers : Nat
  Cached : Nat
  UsedPercent : String
  deriving DecidableEq, Repr

/-- collectors/networkCollector NetworkMetrics. -/
structure NetworkMetrics where
  Interface : String
  SentTotalBytes : Nat
  RecvTotalBytes : Nat
  deriving DecidableEq, Repr

/-- collectors/diskCollector.go DiskMetrics. -/
structure DiskMetrics where
  Device : String
  ReadBytesTotal : Nat
  WriteBytesTotal : Nat
  deriving DecidableEq, Repr

/-- InstantMetric (src/main.go:66-75). -/
structure InstantMetric where
  cmdStatus : Int
  cpu : List CpuMetrics
  memory : MemoryMetrics
  network : List NetworkMetrics
  disk : List DiskMetrics
  msSinceStart : Int
  collectDuration : Int
  timestamp : Int
  deriving DecidableEq, Repr

/-- Go struct GrafanaAnnotation (src/main.go:59-64). -/
structure GrafanaAnnot where
  time : Int
  timeEnd : Int
  text : String
  tags : List String
  deriving DecidableEq, Repr

/-! ## Output serializer (src/main.go, renderLabels / writeResultToFile) -/

/-- Render-time configuration: the globals read by renderLabels and
writeResultToFile. -/
structure RenderConfig where
  version : String
  instanceName : String
  jobName : String
  role : String
  extraLabels : List (String × String)
  deriving DecidableEq, Repr

/-- One `key="value"` element of the label string. -/
def renderPair (kv : String × String) : String :=
  kv.1 ++ "=\"" ++ kv.2 ++ "\""

/-- renderLabels (src/main.go:599-617).  `ord` is the Go map iteration-order
oracle: `for key, value := range m` enumerates the entries of `m` in an order
the runtime chooses; the oracle maps each association list (map contents in
insertion order) to the order a range loop sees. -/
def renderLabels (cfg : RenderConfig)
    (ord : List (String × String) → List (String × String))
    (metricsLabels : List (String × String)) : String :=
  String.intercalate ","
    (("instance=\"" ++ cfg.instanceName ++ "\"") ::
     ("job=\"" ++ cfg.jobName ++ "\"") ::
     ("role=\"" ++ cfg.role ++ "\"") ::
     ((ord metricsLabels).map renderPair ++ (ord cfg.extraLabels).map renderPair))

/-- One exposition-format metric line
`name{labels} value timestamp\n` (writeResultToFile's Sprintf calls). -/
def metricLine (name labels value : String) (ts : Int) : String :=
  name ++ "\x7b" ++ labels ++ "\x7d " ++ value ++ " " ++ toString ts ++ "\n"

/-- The fixed comment block of writeResultToFile (src/main.go:657-693). -/
def commentBlock (version : String) : String :=
  let urlSuffix := if version != "dev" then "tree/" ++ version else ""
  "\n# Collector: blackswift/statexec\n# Version: " ++ version ++
  "\n# Url: https://github.com/blackswifthosting/statexec/" ++ urlSuffix ++
  "\n\n# HELP statexec_command_status Status of the command (0: pending, 1: running, 2: done)\n" ++
  "# TYPE statexec_command_status gauge\n" ++
  "# HELP statexec_cpu_seconds_total CPU time spent in seconds\n" ++
  "# TYPE statexec_cpu_seconds_total counter\n" ++
  "# HELP statexec_memory_total_bytes Total memory in bytes\n" ++
  "# TYPE statexec_memory_total_bytes gauge\n" ++
  "# HELP statexec_memory_available_bytes Available memory in bytes\n" ++
  "# TYPE statexec_memory_available_bytes gauge\n" ++
  "# HELP statexec_memory_used_bytes Used memory in bytes\n" ++
  "# TYPE statexec_memory_used_bytes gauge\n" ++
  "# HELP statexec_memory_free_bytes Free memory in bytes\n" ++
  "# TYPE statexec_memory_free_bytes gauge\n" ++
  "# HELP statexec_memory_buffers_bytes Memory buffers in bytes\n" ++
  "# TYPE statexec_memory_buffers_bytes gauge\n" ++
  "# HELP statexec_memory_cached_bytes Memory cached in bytes\n" ++
  "# TYPE statexec_memory_cached_bytes gauge\n" ++
  "# HELP statexec_memory_used_percent Used memory in percent\n" ++
  "# TYPE statexec_memory_used_percent gauge\n" ++
  "# HELP statexec_network_sent_bytes_total Total sent bytes\n" ++
  "# TYPE statexec_network_sent_bytes_total counter\n" ++
  "# HELP statexec_network_received_bytes_total Total received bytes\n" ++
  "# TYPE statexec_network_received_bytes_total counter\n" ++
  "# HELP statexec_disk_read_bytes_total Total read bytes\n" ++
  "# TYPE statexec_disk_read_bytes_total counter\n" ++
  "# HELP statexec_disk_write_bytes_total Total written bytes\n" ++
  "# TYPE statexec_disk_write_bytes_total counter\n" ++
  "# HELP statexec_time_since_start_ms Milliseconds since monitoring start\n" ++
  "# TYPE statexec_time_since_start_ms gauge\n" ++
  "# HELP statexec_metric_collect_duration_ms Duration of the metric collection in milliseconds\n" ++
  "# TYPE statexec_metric_collect_duration_ms gauge\n\n"

/-- json.Marshal of a string value; the program's annotation texts and tags
contain no characters that JSON escapes, so plain quoting is faithful here. -/
def jsonStr (s : String) : String := "\"" ++ s ++ "\""

/-- json.Marshal of []string. -/
def jsonStrList (l : List String) : String :=
  "[" ++ String.intercalate "," (l.map jsonStr) ++ "]"

/-- json.Marshal of a GrafanaAnnotation value (field order time, timeEnd,
text, tags as in the struct tags, src/main.go:59-64). -/
def annotJson (a : GrafanaAnnot) : String :=
  "\x7b\"time\":" ++ toString a.time ++ ",\"timeEnd\":" ++ toString a.timeEnd ++
  ",\"text\":" ++ jsonStr a.text ++ ",\"tags\":" ++ jsonStrList a.tags ++ "\x7d"

/-- The per-snapshot block of writeResultToFile's metric loop
(src/main.go:718-772).  `defaultLabels` is the string computed once at
src/main.go:640. -/
def renderInstantMetric (cfg : RenderConfig)
    (ord : List (String × String) → List (String × String))
    (defaultLabels : String) (m : InstantMetric) : String :=
  metricLine "statexec_command_status" defaultLabels (toString m.cmdStatus) m.timestamp
  ++ String.join (m.cpu.map (fun cpuMetric =>
       String.join ((ord cpuMetric.CpuTimePerMode).map (fun mv =>
         metricLine "statexec_cpu_seconds_total"
           (renderLabels cfg ord [("cpu", cpuMetric.Cpu), ("mode", mv.1)])
           mv.2 m.timestamp))))
  ++ metricLine "statexec_memory_total_bytes" defaultLabels (toString m.memory.Total) m.timestamp
  ++ metricLine "statexec_memory_available_bytes" defaultLabels (toString m.memory.Available) m.timestamp
  ++ metricLine "statexec_memory_used_bytes" defaultLabels (toString m.memory.Used) m.timestamp
  ++ metricLine "statexec_memory_free_bytes" defaultLabels (toString m.memory.Free) m.timestamp
  ++ metricLine "statexec_memory_buffers_bytes" defaultLabels (toString m.memory.Buffers) m.timestamp
  ++ metricLine "statexec_memory_cached_bytes" defaultLabels (toString m.memory.Cached) m.timestamp
  ++ metricLine "statexec_memory_used_percent" defaultLabels m.memory.UsedPercent m.timestamp
  ++ String.join (m.network.map (fun nm =>
       metricLine "statexec_network_sent_bytes_total"
         (renderLabels cfg ord [("interface", nm.Interface)])
         (toString nm.SentTotalBytes) m.timestamp
       ++ metricLine "statexec_network_received_bytes_total"
         (renderLabels cfg ord [("interface", nm.Interface)])
         (toString nm.RecvTotalBytes) m.timestamp))
  ++ String.join (m.disk.map (fun dm =>
       metricLine "statexec_disk_read_bytes_total"
         (renderLabels cfg ord [("disk", dm.Device)])
         (toString dm.ReadBytesTotal) m.timestamp
       ++ metricLine "statexec_disk_write_bytes_total"
         (renderLabels cfg ord [("disk", dm.Device)])
         (toString dm.WriteBytesTotal) m.timestamp))
  ++ metricLine "statexec_statexec_time_since_start_ms" defaultLabels (toString m.msSinceStart) m.timestamp
  ++ metricLine "statexec_metric_collect_duration_ms" defaultLabels (toString m.collectDuration) m.timestamp

/-- The full byte content written by writeResultToFile (src/main.go:639-775):
comment block, then one `#grafana-annotation` comment line per annotation
followed by a blank line, then the metric lines of every snapshot in store
order.  renderLabels(nil) at src/main.go:640 passes a nil map, whose range
loop yields nothing: the empty list. -/
def renderResult (cfg : RenderConfig)
    (ord : List (String × String) → List (String × String))
    (metricStore : List InstantMetric) (annotationStore : List GrafanaAnnot) : String :=
  let defaultLabels := renderLabels cfg ord []
  commentBlock cfg.version
  ++ String.join (annotationStore.map (fun a => "#grafana-annotation " ++ annotJson a ++ "\n"))
  ++ "\n"
  ++ String.join (metricStore.map (renderInstantMetric cfg ord defaultLabels))

/-- A map iteration-order oracle is valid when the order it yields for a map
is a permutation of the map's entries. -/
def ValidOrd (ord : List (String × String) → List (String × String)) : Prop :=
  ∀ l, List.Perm (ord l) l

/-! ## Execution controller and sampling loop
(startCommand, startMetricCollectLoop, stopCollectingMetrics,
collectInstantMetrics: src/main.go:466-637)

The two concurrent routines are embedded as an explicit interleaving model:
a shared state and a step function over atomic events.  Each event is one
atomic block of one routine; an execution is any event list accepted by
`run`.  Snapshots are modelled by the three fields collectInstantMetrics
computes itself (cmdStatus, msSinceStart, timestamp); the provider outputs
and the measured collectDuration are external inputs that no claim below
depends on. -/

/-- CommandStatusPending (src/main.go:50). -/
def CommandStatusPending : Int := 0
/-- CommandStatusRunning (src/main.go:51). -/
def CommandStatusRunning : Int := 1
/-- CommandStatusDone (src/main.go:52). -/
def CommandStatusDone : Int := 2

/-- The command-state / timing projection of one InstantMetric as filled in
by collectInstantMetrics (src/main.go:620-637). -/
structure Snap where
  cmdStatus : Int
  msSinceStart : Int
  timestamp : Int
  deriving DecidableEq, Repr

/-- The globals read when building snapshots and annotations:
metricsStartTime, instance, jobName, role. -/
structure ExecCfg where
  startTime : Int
  instanceName : String
  jobName : String
  role : String
  deriving DecidableEq, Repr

/-- collectInstantMetrics (src/main.go:620-637) projected to the fields it
computes: msSinceStart is stored as passed, the timestamp is
`metricsStartTime + msSinceStart`, cmdStatus is the current commandState. -/
def collect (cfg : ExecCfg) (state : Int) (ms : Int) : Snap :=
  { cmdStatus := state, msSinceStart := ms, timestamp := cfg.startTime + ms }

/-- The "Command started" annotation (src/main.go:523-534). -/
def annotStart (cfg : ExecCfg) (t : Int) : GrafanaAnnot :=
  { time := t, timeEnd := t, text := "Command started",
    tags := ["statexec", "start", "instance=" ++ cfg.instanceName,
             "job=" ++ cfg.jobName, "role=" ++ cfg.role] }

/-- The "Command done with status <code>" annotation (src/main.go:544-555). -/
def annotDone (cfg : ExecCfg) (t code : Int) : GrafanaAnnot :=
  { time := t, timeEnd := t,
    text := "Command done with status " ++ toString code,
    tags := ["statexec", "done", "instance=" ++ cfg.instanceName,
             "job=" ++ cfg.jobName, "role=" ++ cfg.role] }

/-- Shared state of startCommand and startMetricCollectLoop. -/
structure ExecState where
  /-- Global commandState (src/main.go:40). -/
  commandState : Int
  /-- Global metricStore (src/main.go:42), append-only. -/
  metricStore : List Snap
  /-- Global annotationStore (src/main.go:43), append-only. -/
  annotationStore : List GrafanaAnnot
  /-- The loop's local msSinceStart counter (src/main.go:574). -/
  loopMs : Int
  /-- The loop goroutine has executed its initial collect (src/main.go:576). -/
  loopEntered : Bool
  /-- The loop's stopGatheringNextIteration flag (src/main.go:578). -/
  stopNext : Bool
  /-- The loop has written the result file and returned (src/main.go:585-586). -/
  loopDone : Bool
  /-- stopCollectingMetrics has sent on the quit channel (src/main.go:594-596). -/
  quitSent : Bool
  /-- Progress of startCommand: 0 before cmd.Start, 1 after the start
  annotation, 2 after the done annotation, 3 after stopCollectingMetrics. -/
  ctrlPhase : Nat
  /-- commandStartedAtTime (src/main.go:519), once ctrlPhase ≥ 1. -/
  startedAt : Int
  deriving DecidableEq, Repr

/-- Atomic events of the interleaving.  `ctrlStart`/`ctrlDone` carry the
wall-clock readings `time.Now().UnixMilli() - realStartTime.UnixMilli()`
taken at src/main.go:519 and :540; `tick` carries nothing because the loop
body consults no clock. -/
inductive Ev where
  | loopInit
  | tick
  | quitRecv
  | ctrlStart (t : Int)
  | ctrlDone (t code : Int)
  | ctrlQuit
  deriving DecidableEq, Repr

/-- One atomic step.  Guards encode when the Go statement can execute:
the loop's initial collect runs exactly once; a ticker tick or a quit
receive needs the loop alive; the unbuffered quit channel delivers only
after stopCollectingMetrics sent and only once; controller steps follow
program order in startCommand, and the wait return time is no earlier than
the start time (wall clock read monotonically). -/
def step (cfg : ExecCfg) (s : ExecState) : Ev → Option ExecState
  | Ev.loopInit =>
      if s.loopEntered then none
      else some { s with
        metricStore := s.metricStore ++ [collect cfg s.commandState 0],
        loopEntered := true }
  | Ev.tick =>
      if s.loopEntered ∧ ¬ s.loopDone then
        some { s with
          loopMs := s.loopMs + 1000,
          metricStore := s.metricStore ++ [collect cfg s.commandState (s.loopMs + 1000)],
          loopDone := s.stopNext }
      else none
  | Ev.quitRecv =>
      if s.quitSent ∧ s.loopEntered ∧ ¬ s.loopDone ∧ ¬ s.stopNext then
        some { s with stopNext := true }
      else none
  | Ev.ctrlStart t =>
      if s.ctrlPhase = 0 then
        some { s with
          commandState := CommandStatusRunning,
          metricStore := s.metricStore ++ [collect cfg CommandStatusRunning t],
          annotationStore := s.annotationStore ++ [annotStart cfg t],
          ctrlPhase := 1,
          startedAt := t }
      else none
  | Ev.ctrlDone t code =>
      if s.ctrlPhase = 1 ∧ s.startedAt ≤ t then
        some { s with
          commandState := CommandStatusDone,
          metricStore := s.metricStore ++ [collect cfg CommandStatusDone t],
          annotationStore := s.annotationStore ++ [annotDone cfg t code],
          ctrlPhase := 2 }
      else none
  | Ev.ctrlQuit =>
      if s.ctrlPhase = 2 then
        some { s with quitSent := true, ctrlPhase := 3 }
      else none

/-- State at entry of startCommand: commandState = Pending, empty stores,
loop not yet spawned. -/
def initState : ExecState :=
  { commandState := CommandStatusPending, metricStore := [],
    annotationStore := [], loopMs := 0, loopEntered := false,
    stopNext := false, loopDone := false, quitSent := false,
    ctrlPhase := 0, startedAt := 0 }

/-- Run an event list from a state; `none` when some event's guard fails. -/
def run (cfg : ExecCfg) (s : ExecState) : List Ev → Option ExecState
  | [] => some s
  | e :: es =>
      match step cfg s e with
      | none => none
      | some s2 => run cfg s2 es

/-- Events that append a snapshot on behalf of the sampling loop: the
immediate t=0 collect and the ticker-tick collect. -/
def isLoopSample : Ev → Bool
  | Ev.loopInit => true
  | Ev.tick => true
  | _ => false

/-- Ticker ticks only. -/
def isTick : Ev → Bool
  | Ev.tick => true
  | _ => false

/-! ## Server role (waitForHttpSyncToStartCommand, src/main.go:389-464) -/

/-- The two flags of the server role (src/main.go:393-394). -/
structure SyncState where
  cmdStarted : Bool
  cmdFinished : Bool
  deriving DecidableEq, Repr

/-- Server-side events: the two POST handlers, plus the asynchronous
completion of the command goroutine (which sets cmdFinished after
startCommand returns, src/main.go:417). -/
inductive SyncEv where
  | startReq
  | stopReq
  | complete
  deriving DecidableEq, Repr

/-- Both flags start false (src/main.go:393-394). -/
def initSync : SyncState := { cmdStarted := false, cmdFinished := false }

/-- One handler invocation (or goroutine completion), returning the new
state and the HTTP status responded, if any.  /start holds the mutex for
the whole handler and the accepted branch's goroutine sets cmdStarted as
its first action (src/main.go:404-428), so handler plus flag-set is one
atomic transition here; the rejecting branch (409 "KO") changes nothing.
/stop (src/main.go:430-458) answers 412 before any start, 202 while the
command runs (also signalling os.Interrupt to the child), 204 after it
finished.  `complete` can only happen for the goroutine an accepted start
spawned. -/
def serverStep (st : SyncState) : SyncEv → SyncState × Option Nat
  | SyncEv.startReq =>
      if st.cmdStarted then (st, some 409)
      else ({ st with cmdStarted := true }, some 201)
  | SyncEv.stopReq =>
      if st.cmdStarted then
        if st.cmdFinished then (st, some 204) else (st, some 202)
      else (st, some 412)
  | SyncEv.complete =>
      if st.cmdStarted then ({ st with cmdFinished := true }, none) else (st, none)

/-- Process a sequence of server events, collecting the responses in order. -/
def runServer (st : SyncState) : List SyncEv → SyncState × List Nat
  | [] => (st, [])
  | e :: es =>
      let p := serverStep st e
      let q := runServer p.1 es
      (q.1, p.2.toList ++ q.2)

/-! ## Client role (syncStartCommand, src/main.go:366-387) and the wait
error handling of startCommand (src/main.go:537-555) -/

/-- Outcome of one http.Post call as the client sees it: `ok` with a status
code (err = nil), or a transport-level error (err ≠ nil). -/
inductive PostResult where
  | ok (status : Nat)
  | transportError
  deriving DecidableEq, Repr

/-- Observable outcome of one client-role run. -/
structure ClientRun where
  /-- The process called os.Exit with a non-zero code. -/
  exitedFatally : Bool
  /-- The argument of that os.Exit call, when taken. -/
  exitCode : Option Nat
  /-- startCommand was invoked (the child spawned and sampling begun). -/
  commandStarted : Bool
  deriving DecidableEq, Repr

/-- syncStartCommand (src/main.go:366-387) as a function of the transport
outcomes of its two POSTs: a failed start POST is fatal (os.Exit(1)) before
startCommand; otherwise the command runs, and when syncStop is set a failed
stop POST is fatal after it. -/
def syncStartCommand (startPost stopPost : PostResult) (syncStop : Bool) : ClientRun :=
  match startPost with
  | PostResult.transportError =>
      { exitedFatally := true, exitCode := some 1, commandStarted := false }
  | PostResult.ok _ =>
      if syncStop then
        match stopPost with
        | PostResult.transportError =>
            { exitedFatally := true, exitCode := some 1, commandStarted := true }
        | PostResult.ok _ =>
            { exitedFatally := false, exitCode := none, commandStarted := true }
      else
        { exitedFatally := false, exitCode := none, commandStarted := true }

/-- Possible results of cmd.Wait() at src/main.go:537. -/
inductive WaitOutcome where
  | exitOk
  | exitNonZero (code : Int)
  | waitFailed
  deriving DecidableEq, Repr

/-- cmd.ProcessState.ExitCode() as read at src/main.go:547: the child's exit
code when Wait returned (err nil or an ExitError), and Go's nil-receiver
convention -1 when Wait itself failed and ProcessState was never set. -/
def processStateExitCode : WaitOutcome → Int
  | WaitOutcome.exitOk => 0
  | WaitOutcome.exitNonZero code => code
  | WaitOutcome.waitFailed => -1

/-- What startCommand does right after cmd.Wait. -/
inductive CtrlStep where
  | continueWith (doneText : String)
  | fatal
  deriving DecidableEq, Repr

/-- The post-wait behavior of startCommand (src/main.go:537-555): the
result of cmd.Wait is discarded (`_ = cmd.Wait()`), and execution always
proceeds to the Done transition and the done annotation built from
cmd.ProcessState.ExitCode(). -/
def afterWait (w : WaitOutcome) : CtrlStep :=
  match w with
  | w => CtrlStep.continueWith ("Command done with status " ++ toString (processStateExitCode w))

/-! ## Theorems -/

/-- Claim C1, counterexample: the key "disk" and the mixed-case key
"Instance" both normalize (case-insensitively) to one of the six reserved
names, so the claim demands they be rejected; addLabel accepts both, and
"Instance" even ends up stored as the reserved key "instance". -/
theorem addLabel_accepts_disk_counterexample :
    (claimReject "disk" = true ∧ addLabel [] "disk" "ssd" = some [("disk", "ssd")])
    ∧ (claimReject "Instance" = true ∧ addLabel [] "Instance" "x" = some [("instance", "x")]) := by
  decide

/-- Claim C1 as amended: a configured extra label key is rejected with a
fatal configuration error if and only if, after replacing every
non-alphanumeric character with an underscore, it equals case-SENSITIVELY
one of the five names instance, job, cpu, mode, interface; "disk" is not
checked, and lowercasing happens only when an accepted key is stored. -/
theorem addLabel_rejects_iff (labels : List (String × String)) (key value : String) :
    addLabel labels key value = none ↔ normalizeLabelKey key ∈ forbiddenKeys := by
  unfold addLabel
  by_cases h : normalizeLabelKey key ∈ forbiddenKeys
  · simp [h]
  · simp [h]

/-- A render configuration with two extra labels, as produced by two
configured `-l` flags. -/
def cfgEx : RenderConfig :=
  { version := "dev", instanceName := "cmd", jobName := "statexec",
    role := "standalone", extraLabels := [("a", "1"), ("b", "2")] }

/-- A provider snapshot with all memory readings zero. -/
def memZero : MemoryMetrics :=
  { Total := 0, Available := 0, Used := 0, Free := 0, Buffers := 0,
    Cached := 0, UsedPercent := "0.000000" }

/-- A minimal snapshot: no cpu/network/disk entries. -/
def metricEx : InstantMetric :=
  { cmdStatus := 0, cpu := [], memory := memZero, network := [], disk := [],
    msSinceStart := 0, collectDuration := 0, timestamp := 0 }

/-- Strings with the same prefix and different suffixes differ. -/
theorem string_append_ne_of_ne (p : String) {x y : String} (h : x ≠ y) :
    p ++ x ≠ p ++ y := by
  intro he
  apply h
  have hd := congrArg String.data he
  rw [String.data_append, String.data_append] at hd
  exact String.ext (List.append_cancel_left hd)

/-- Strings with distinct same-length prefixes differ, whatever follows. -/
theorem string_prefix_ne {x y s t : String}
    (hl : x.length = y.length) (h : x ≠ y) : x ++ s ≠ y ++ t := by
  intro he
  apply h
  have hd := congrArg String.data he
  rw [String.data_append, String.data_append] at hd
  exact String.ext (List.append_inj hd hl).1

/-- String.join of a one-element list. -/
theorem strJoinSingleton (s : String) : String.join [s] = s := rfl

/-- Claim C2, counterexample: rendering is NOT a pure function of the two
stores.  The identity order and the reversed order are both valid Go map
iteration orders of the same extra-label map, yet rendering the same
metric store and annotation store under the two orders yields different
bytes (the command_status line's label block already differs). -/
theorem renderResult_map_order_counterexample :
    ValidOrd (fun l => l) ∧ ValidOrd (fun l => l.reverse) ∧
    renderResult cfgEx (fun l => l) [metricEx] [] ≠
      renderResult cfgEx (fun l => l.reverse) [metricEx] [] := by
  refine ⟨fun l => List.Perm.refl l, fun l => List.reverse_perm l, ?_⟩
  simp only [renderResult, List.map_nil, List.map_cons, strJoinSingleton,
    String.append_assoc]
  apply string_append_ne_of_ne
  apply string_append_ne_of_ne
  apply string_append_ne_of_ne
  unfold renderInstantMetric metricLine
  simp only [String.append_assoc]
  apply string_append_ne_of_ne
  apply string_append_ne_of_ne
  apply string_prefix_ne
  · decide
  · decide

/-- A valid iteration-order oracle is the identity on maps with at most one
entry. -/
theorem validOrd_small {ord : List (String × String) → List (String × String)}
    (h : ValidOrd ord) {l : List (String × String)} (hl : l.length ≤ 1) : ord l = l := by
  match l, hl with
  | [], _ => exact List.Perm.eq_nil (h [])
  | [a], _ => exact List.perm_singleton.mp (h [a])

/-- renderLabels does not depend on the iteration order when the per-metric
label map and the extra-label map each have at most one entry. -/
theorem renderLabels_ord_small (cfg : RenderConfig)
    {ord1 ord2 : List (String × String) → List (String × String)}
    (h1 : ValidOrd ord1) (h2 : ValidOrd ord2)
    (hextra : cfg.extraLabels.length ≤ 1)
    {ml : List (String × String)} (hml : ml.length ≤ 1) :
    renderLabels cfg ord1 ml = renderLabels cfg ord2 ml := by
  unfold renderLabels
  rw [validOrd_small h1 hml, validOrd_small h2 hml,
      validOrd_small h1 hextra, validOrd_small h2 hextra]

/-- Per-snapshot rendering does not depend on the iteration order for
snapshots without cpu entries (whose label maps are two-element) when the
extra-label map has at most one entry. -/
theorem renderInstantMetric_ord_small (cfg : RenderConfig)
    {ord1 ord2 : List (String × String) → List (String × String)}
    (h1 : ValidOrd ord1) (h2 : ValidOrd ord2)
    (hextra : cfg.extraLabels.length ≤ 1)
    (m : InstantMetric) (hcpu : m.cpu = []) :
    renderInstantMetric cfg ord1 (renderLabels cfg ord1 []) m
      = renderInstantMetric cfg ord2 (renderLabels cfg ord2 []) m := by
  have hd : renderLabels cfg ord1 [] = renderLabels cfg ord2 [] :=
    renderLabels_ord_small cfg h1 h2 hextra (by simp)
  have hnet : ∀ nm : NetworkMetrics,
      renderLabels cfg ord1 [("interface", nm.Interface)]
        = renderLabels cfg ord2 [("interface", nm.Interface)] :=
    fun nm => renderLabels_ord_small cfg h1 h2 hextra (by simp)
  have hdisk : ∀ dm : DiskMetrics,
      renderLabels cfg ord1 [("disk", dm.Device)]
        = renderLabels cfg ord2 [("disk", dm.Device)] :=
    fun dm => renderLabels_ord_small cfg h1 h2 hextra (by simp)
  unfold renderInstantMetric
  rw [hcpu]
  simp only [List.map_nil, hd, hnet, hdisk]

/-- Claim C2 as amended: rendering is a pure function of the metric store,
the annotation store AND the Go map iteration orders the runtime chooses.
Byte-identical re-rendering is guaranteed for stores in which every label
map that gets iterated has at most one entry — at most one extra label and
no cpu entries (a cpu line iterates the two-element \x7bcpu, mode\x7d map
and the mode map); with a multi-entry map, two valid iteration orders can
differ and change the bytes. -/
theorem renderResult_small_maps_deterministic (cfg : RenderConfig)
    (ord1 ord2 : List (String × String) → List (String × String))
    (h1 : ValidOrd ord1) (h2 : ValidOrd ord2)
    (hextra : cfg.extraLabels.length ≤ 1)
    (ms : List InstantMetric) (hcpu : ∀ m ∈ ms, m.cpu = [])
    (annots : List GrafanaAnnot) :
    renderResult cfg ord1 ms annots = renderResult cfg ord2 ms annots := by
  have hall : List.map (renderInstantMetric cfg ord1 (renderLabels cfg ord1 [])) ms
      = List.map (renderInstantMetric cfg ord2 (renderLabels cfg ord2 [])) ms :=
    List.map_congr_left (fun m hm =>
      renderInstantMetric_ord_small cfg h1 h2 hextra m (hcpu m hm))
  simp only [renderResult]
  rw [hall]

/-- A configuration with a single extra label. -/
def cfgSmall : RenderConfig :=
  { version := "dev", instanceName := "c", jobName := "statexec",
    role := "standalone", extraLabels := [("env", "dev")] }

/-- A cpu-free snapshot with one network interface and one disk device. -/
def metricSmall : InstantMetric :=
  { cmdStatus := 2, cpu := [], memory := memZero,
    network := [{ Interface := "eth0", SentTotalBytes := 5, RecvTotalBytes := 6 }],
    disk := [{ Device := "sda", ReadBytesTotal := 7, WriteBytesTotal := 8 }],
    msSinceStart := 0, collectDuration := 0, timestamp := 0 }

/-- Witness for the amended C2, at a one-extra-label configuration, a
cpu-free one-snapshot store, and the identity and reversal orders. -/
theorem renderResult_small_maps_deterministic_witness :
    cfgSmall.extraLabels.length ≤ 1
    ∧ (∀ m ∈ [metricSmall], m.cpu = ([] : List CpuMetrics))
    ∧ renderResult cfgSmall (fun l => l) [metricSmall] []
        = renderResult cfgSmall (fun l => l.reverse) [metricSmall] [] :=
  ⟨by decide, by decide,
   renderResult_small_maps_deterministic cfgSmall (fun l => l) (fun l => l.reverse)
     (fun l => List.Perm.refl l) (fun l => List.reverse_perm l)
     (by decide) [metricSmall] (by decide) []⟩

/-- Claim C4: the server role's control endpoint, as a state machine over
the started/finished flags, answers 201 then 409 to start,start; 412 to a
stop before any start; 201, 202, 204 to start, stop, stop (the command
completing asynchronously between the two stops, as the interrupt the 202
stop forwarded causes); and a rejected start (409) changes no state. -/
theorem server_control_state_machine :
    (runServer initSync [SyncEv.startReq, SyncEv.startReq]).2 = [201, 409]
    ∧ (runServer initSync [SyncEv.stopReq]).2 = [412]
    ∧ (runServer initSync
        [SyncEv.startReq, SyncEv.stopReq, SyncEv.complete, SyncEv.stopReq]).2 = [201, 202, 204]
    ∧ ∀ st : SyncState, st.cmdStarted = true → serverStep st SyncEv.startReq = (st, some 409) := by
  refine ⟨by decide, by decide, by decide, ?_⟩
  intro st h
  simp [serverStep, h]

/-- Witness for C4: the no-state-change part evaluated at a concrete
started state. -/
theorem server_control_state_machine_witness :
    serverStep { cmdStarted := true, cmdFinished := false } SyncEv.startReq
      = ({ cmdStarted := true, cmdFinished := false }, some 409) :=
  server_control_state_machine.2.2.2 { cmdStarted := true, cmdFinished := false } rfl

/-- Claim C7, counterexample: the claim says a wait error indicating the
process could not be waited on at all is fatal and terminates the program;
in the code `_ = cmd.Wait()` discards every wait error, so on a failed wait
execution continues (with exit code -1 from the nil ProcessState) and is
not fatal. -/
theorem wait_error_not_fatal_counterexample :
    afterWait WaitOutcome.waitFailed = CtrlStep.continueWith "Command done with status -1"
    ∧ afterWait WaitOutcome.waitFailed ≠ CtrlStep.fatal := by
  decide

/-- Claim C7 as amended: after the child starts, the controller blocks
until it exits, then continues unconditionally: every wait outcome — clean
exit, non-zero exit, or a wait failure — is ignored and execution proceeds
to the done annotation carrying cmd.ProcessState.ExitCode(); no wait
outcome is fatal. -/
theorem wait_error_always_ignored (w : WaitOutcome) :
    afterWait w = CtrlStep.continueWith
        ("Command done with status " ++ toString (processStateExitCode w))
    ∧ afterWait w ≠ CtrlStep.fatal := by
  cases w <;> exact ⟨rfl, fun h => CtrlStep.noConfusion h⟩

/-- metricsStartTime 0 and the standalone identity labels, for concrete
scenario runs. -/
def cfgW : ExecCfg :=
  { startTime := 0, instanceName := "cmd", jobName := "statexec",
    role := "standalone" }

/-- The 2-second / 1-second-cadence / zero-delay scenario, resolved with
the loop's initial collect before the command start and the quit signal
observed before the 2000 ms tick fires: loop start, command start, the
1000 ms tick, command exit observed at 2000 ms, quit, and the final tick. -/
def trace2sA : List Ev :=
  [Ev.loopInit, Ev.ctrlStart 0, Ev.tick, Ev.ctrlDone 2000 0, Ev.ctrlQuit,
   Ev.quitRecv, Ev.tick]

/-- As trace2sA but with the command start winning the race against the
loop's initial collect. -/
def trace2sB : List Ev :=
  [Ev.ctrlStart 0, Ev.loopInit, Ev.tick, Ev.ctrlDone 2000 0, Ev.ctrlQuit,
   Ev.quitRecv, Ev.tick]

/-- As trace2sA but with the 2000 ms tick firing before the exit of the
command is observed. -/
def trace2sC : List Ev :=
  [Ev.loopInit, Ev.ctrlStart 0, Ev.tick, Ev.tick, Ev.ctrlDone 2000 0,
   Ev.ctrlQuit, Ev.quitRecv, Ev.tick]

/-- Both races resolved the other way. -/
def trace2sD : List Ev :=
  [Ev.ctrlStart 0, Ev.loopInit, Ev.tick, Ev.tick, Ev.ctrlDone 2000 0,
   Ev.ctrlQuit, Ev.quitRecv, Ev.tick]

/-- Claim C3, counterexample: in the 2-second scenario the metric store at
shutdown holds 5 snapshots, not 3 — startCommand itself also collects a
snapshot at command start (src/main.go:520) and at command completion
(src/main.go:541), in addition to the loop's t=0, t=1000 ms and post-stop
samples. -/
theorem scenario2s_store_not_three :
    Option.map (fun s => s.metricStore.length) (run cfgW initState trace2sA) = some 5
    ∧ Option.map (fun s => s.metricStore.length) (run cfgW initState trace2sA) ≠ some 3 := by
  constructor
  · decide
  · decide

/-- Claim C3 as amended: the 2-second scenario leaves 5 snapshots in the
store (6 when the 2000 ms tick fires before the exit is observed): the
loop's t=0 sample, the controller's command-start sample, the 1000 ms tick
(plus possibly the 2000 ms tick), the controller's completion sample, and
the post-stop final tick.  command_status is 0 or 1 on every sample taken
before completion and 2 from the completion sample on; in particular the
final snapshot always reflects the Done state.  All four race resolutions
are listed. -/
theorem scenario2s_store_contents :
    Option.map (fun s => (s.metricStore.map (fun m => m.cmdStatus),
        s.metricStore.map (fun m => m.msSinceStart))) (run cfgW initState trace2sA)
      = some ([0, 1, 1, 2, 2], [0, 0, 1000, 2000, 2000])
    ∧ Option.map (fun s => (s.metricStore.map (fun m => m.cmdStatus),
        s.metricStore.map (fun m => m.msSinceStart))) (run cfgW initState trace2sB)
      = some ([1, 1, 1, 2, 2], [0, 0, 1000, 2000, 2000])
    ∧ Option.map (fun s => (s.metricStore.map (fun m => m.cmdStatus),
        s.metricStore.map (fun m => m.msSinceStart))) (run cfgW initState trace2sC)
      = some ([0, 1, 1, 1, 2, 2], [0, 0, 1000, 2000, 2000, 3000])
    ∧ Option.map (fun s => (s.metricStore.map (fun m => m.cmdStatus),
        s.metricStore.map (fun m => m.msSinceStart))) (run cfgW initState trace2sD)
      = some ([1, 1, 1, 1, 2, 2], [0, 0, 1000, 2000, 2000, 3000]) := by
  refine ⟨by decide, by decide, by decide, by decide⟩

/-- Splitting a run over list concatenation. -/
theorem run_append (cfg : ExecCfg) (l1 l2 : List Ev) (s : ExecState) :
    run cfg s (l1 ++ l2) = (run cfg s l1).bind (fun s1 => run cfg s1 l2) := by
  induction l1 generalizing s with
  | nil => rfl
  | cons e es ih =>
      simp only [List.cons_append, run]
      cases hstep : step cfg s e with
      | none => rfl
      | some s2 => exact ih s2

/-- A predicate preserved by every step holds after every successful run. -/
theorem run_inv (cfg : ExecCfg) (P : ExecState → Prop)
    (hstep : ∀ s e s2, step cfg s e = some s2 → P s → P s2) :
    ∀ (tr : List Ev) (s0 s : ExecState), run cfg s0 tr = some s → P s0 → P s := by
  intro tr
  induction tr with
  | nil =>
      intro s0 s h hp
      rw [run, Option.some_inj] at h
      exact h ▸ hp
  | cons e es ih =>
      intro s0 s h hp
      cases hstep2 : step cfg s0 e with
      | none =>
          simp only [run, hstep2] at h
          exact Option.noConfusion h
      | some s1 =>
          simp only [run, hstep2] at h
          exact ih s1 s h (hstep s0 e s1 hstep2 hp)

/-- After the loop has terminated (loopDone with loopEntered), no further
event appends a loop sample, and both flags persist. -/
theorem step_done_analysis (cfg : ExecCfg) (s : ExecState) (e : Ev) (s2 : ExecState)
    (hdone : s.loopDone = true) (hent : s.loopEntered = true)
    (h : step cfg s e = some s2) :
    isLoopSample e = false ∧ s2.loopDone = true ∧ s2.loopEntered = true := by
  cases e with
  | loopInit => simp [step, hent] at h
  | tick => simp [step, hdone] at h
  | quitRecv => simp [step, hdone] at h
  | ctrlStart t =>
      simp only [step] at h
      split at h
      · rw [Option.some_inj] at h
        subst h
        exact ⟨rfl, hdone, hent⟩
      · exact Option.noConfusion h
  | ctrlDone t code =>
      simp only [step] at h
      split at h
      · rw [Option.some_inj] at h
        subst h
        exact ⟨rfl, hdone, hent⟩
      · exact Option.noConfusion h
  | ctrlQuit =>
      simp only [step] at h
      split at h
      · rw [Option.some_inj] at h
        subst h
        exact ⟨rfl, hdone, hent⟩
      · exact Option.noConfusion h

/-- No event of a run that starts in a terminated loop state is a loop
sample. -/
theorem no_loop_sample_after_done (cfg : ExecCfg) :
    ∀ (tr : List Ev) (s0 s : ExecState), s0.loopDone = true → s0.loopEntered = true →
      run cfg s0 tr = some s → tr.countP isLoopSample = 0 := by
  intro tr
  induction tr with
  | nil => intro s0 s _ _ _; rfl
  | cons e es ih =>
      intro s0 s hdone hent h
      cases hstep : step cfg s0 e with
      | none =>
          simp only [run, hstep] at h
          exact Option.noConfusion h
      | some s1 =>
          simp only [run, hstep] at h
          obtain ⟨he, hd1, hn1⟩ := step_done_analysis cfg s0 e s1 hdone hent hstep
          simp [List.countP_cons, he, ih s1 s hd1 hn1 h]

/-- From a stop-armed live loop state, an event either is the final tick
(terminating the loop) or leaves the stop-armed live state intact without
producing a loop sample. -/
theorem step_stop_analysis (cfg : ExecCfg) (s : ExecState) (e : Ev) (s2 : ExecState)
    (hstop : s.stopNext = true) (hent : s.loopEntered = true) (hnd : s.loopDone = false)
    (h : step cfg s e = some s2) :
    (isLoopSample e = true ∧ s2.loopDone = true ∧ s2.loopEntered = true)
    ∨ (isLoopSample e = false ∧ s2.stopNext = true ∧ s2.loopEntered = true
        ∧ s2.loopDone = false) := by
  cases e with
  | loopInit => simp [step, hent] at h
  | tick =>
      simp only [step] at h
      split at h
      · rw [Option.some_inj] at h
        subst h
        exact Or.inl ⟨rfl, hstop, hent⟩
      · exact Option.noConfusion h
  | quitRecv => simp [step, hstop] at h
  | ctrlStart t =>
      simp only [step] at h
      split at h
      · rw [Option.some_inj] at h
        subst h
        exact Or.inr ⟨rfl, hstop, hent, hnd⟩
      · exact Option.noConfusion h
  | ctrlDone t code =>
      simp only [step] at h
      split at h
      · rw [Option.some_inj] at h
        subst h
        exact Or.inr ⟨rfl, hstop, hent, hnd⟩
      · exact Option.noConfusion h
  | ctrlQuit =>
      simp only [step] at h
      split at h
      · rw [Option.some_inj] at h
        subst h
        exact Or.inr ⟨rfl, hstop, hent, hnd⟩
      · exact Option.noConfusion h

/-- From a stop-armed live loop state, a run that ends with the loop
terminated contains exactly one loop sample (the final tick). -/
theorem one_loop_sample_after_stop (cfg : ExecCfg) :
    ∀ (tr : List Ev) (s0 s : ExecState),
      s0.stopNext = true → s0.loopEntered = true → s0.loopDone = false →
      run cfg s0 tr = some s → s.loopDone = true →
      tr.countP isLoopSample = 1 := by
  intro tr
  induction tr with
  | nil =>
      intro s0 s hstop hent hnd h hdone
      rw [run, Option.some_inj] at h
      subst h
      rw [hnd] at hdone
      exact Bool.noConfusion hdone
  | cons e es ih =>
      intro s0 s hstop hent hnd h hdone
      cases hstep : step cfg s0 e with
      | none =>
          simp only [run, hstep] at h
          exact Option.noConfusion h
      | some s1 =>
          simp only [run, hstep] at h
          rcases step_stop_analysis cfg s0 e s1 hstop hent hnd hstep with
            ⟨he, hd1, hn1⟩ | ⟨he, h1, h2, h3⟩
          · have hz := no_loop_sample_after_done cfg es s1 s hd1 hn1 h
            simp [List.countP_cons, he, hz]
          · have hrec := ih s1 s h1 h2 h3 h hdone
            simp [List.countP_cons, he, hrec]

/-- Loop invariant: termination implies the loop ran, and a running loop
has deposited its immediate t=0 sample in the store. -/
def loopInv (s : ExecState) : Prop :=
  (s.loopDone = true → s.loopEntered = true)
  ∧ (s.loopEntered = true → ∃ m ∈ s.metricStore, m.msSinceStart = 0)

/-- Every step preserves loopInv. -/
theorem step_loopInv (cfg : ExecCfg) (s : ExecState) (e : Ev) (s2 : ExecState)
    (h : step cfg s e = some s2) (hP : loopInv s) : loopInv s2 := by
  obtain ⟨h1, h2⟩ := hP
  cases e with
  | loopInit =>
      simp only [step] at h
      split at h
      · exact Option.noConfusion h
      · rw [Option.some_inj] at h
        subst h
        refine ⟨fun _ => rfl, fun _ => ⟨collect cfg s.commandState 0, ?_, rfl⟩⟩
        simp
  | tick =>
      simp only [step] at h
      split at h
      · rw [Option.some_inj] at h
        subst h
        rename_i hg
        refine ⟨fun _ => hg.1, fun _ => ?_⟩
        obtain ⟨m, hm, hms⟩ := h2 hg.1
        exact ⟨m, List.mem_append_left _ hm, hms⟩
      · exact Option.noConfusion h
  | quitRecv =>
      simp only [step] at h
      split at h
      · rw [Option.some_inj] at h
        subst h
        exact ⟨h1, h2⟩
      · exact Option.noConfusion h
  | ctrlStart t =>
      simp only [step] at h
      split at h
      · rw [Option.some_inj] at h
        subst h
        refine ⟨h1, fun he => ?_⟩
        obtain ⟨m, hm, hms⟩ := h2 he
        exact ⟨m, List.mem_append_left _ hm, hms⟩
      · exact Option.noConfusion h
  | ctrlDone t code =>
      simp only [step] at h
      split at h
      · rw [Option.some_inj] at h
        subst h
        refine ⟨h1, fun he => ?_⟩
        obtain ⟨m, hm, hms⟩ := h2 he
        exact ⟨m, List.mem_append_left _ hm, hms⟩
      · exact Option.noConfusion h
  | ctrlQuit =>
      simp only [step] at h
      split at h
      · rw [Option.some_inj] at h
        subst h
        exact ⟨h1, h2⟩
      · exact Option.noConfusion h

/-- Claim C5: every completed execution leaves at least one sampling-loop
snapshot (the immediate t=0 capture) in the store — even if the child
exits instantly — and after the stop request is received on the quit
channel, exactly one further loop snapshot (the next tick) is produced
before the loop exits. -/
theorem sampling_loop_min_one_and_one_post_stop (cfg : ExecCfg) (tr1 tr2 : List Ev)
    (s : ExecState)
    (h : run cfg initState (tr1 ++ Ev.quitRecv :: tr2) = some s)
    (hdone : s.loopDone = true) :
    (∃ m ∈ s.metricStore, m.msSinceStart = 0)
    ∧ 1 ≤ (tr1 ++ Ev.quitRecv :: tr2).countP isLoopSample
    ∧ tr2.countP isLoopSample = 1 := by
  have hinv : loopInv s := by
    refine run_inv cfg loopInv (fun a b c hh hp => step_loopInv cfg a b c hh hp)
      _ initState s h ⟨fun hq => Bool.noConfusion hq, fun hq => Bool.noConfusion hq⟩
  have hpart1 : ∃ m ∈ s.metricStore, m.msSinceStart = 0 := hinv.2 (hinv.1 hdone)
  rw [run_append] at h
  cases hq : run cfg initState tr1 with
  | none =>
      rw [hq] at h
      exact Option.noConfusion h
  | some s1 =>
      rw [hq] at h
      have h2 : run cfg s1 (Ev.quitRecv :: tr2) = some s := h
      cases hqr : step cfg s1 Ev.quitRecv with
      | none =>
          simp only [run, hqr] at h2
          exact Option.noConfusion h2
      | some s1q =>
          simp only [run, hqr] at h2
          have hq2 : s1q.stopNext = true ∧ s1q.loopEntered = true ∧ s1q.loopDone = false := by
            simp only [step] at hqr
            split at hqr
            · rw [Option.some_inj] at hqr
              subst hqr
              rename_i hg
              exact ⟨rfl, hg.2.1, by simpa using hg.2.2.1⟩
            · exact Option.noConfusion hqr
          have h3 := one_loop_sample_after_stop cfg tr2 s1q s hq2.1 hq2.2.1 hq2.2.2 h2 hdone
          refine ⟨hpart1, ?_, h3⟩
          rw [List.countP_append, List.countP_cons]
          simp [isLoopSample, h3]

/-- The sequence of events startCommand performs after the final tick of
the 0-second scenario: loop start, instant command, quit handshake. -/
def trace5a : List Ev := [Ev.loopInit, Ev.ctrlStart 0, Ev.ctrlDone 0 0, Ev.ctrlQuit]

/-- Final state of the instant-command scenario trace5a followed by
quitRecv and the final tick. -/
def wstate5 : ExecState :=
  { commandState := 2,
    metricStore := [⟨0, 0, 0⟩, ⟨1, 0, 0⟩, ⟨2, 0, 0⟩, ⟨2, 1000, 1000⟩],
    annotationStore := [annotStart cfgW 0, annotDone cfgW 0 0],
    loopMs := 1000, loopEntered := true, stopNext := true, loopDone := true,
    quitSent := true, ctrlPhase := 3, startedAt := 0 }

/-- Witness for C5 on the instant-command scenario. -/
theorem sampling_loop_min_one_and_one_post_stop_witness :
    run cfgW initState (trace5a ++ Ev.quitRecv :: [Ev.tick]) = some wstate5
    ∧ wstate5.loopDone = true
    ∧ ((∃ m ∈ wstate5.metricStore, m.msSinceStart = 0)
       ∧ 1 ≤ (trace5a ++ Ev.quitRecv :: [Ev.tick]).countP isLoopSample
       ∧ [Ev.tick].countP isLoopSample = 1) :=
  ⟨by decide, rfl,
   sampling_loop_min_one_and_one_post_stop cfgW trace5a [Ev.tick] wstate5 (by decide) rfl⟩

/-- Annotation-store invariant tying the controller phase to the exact
annotation list contents. -/
def annInv (cfg : ExecCfg) (s : ExecState) : Prop :=
  (s.ctrlPhase = 0 ∧ s.annotationStore = [])
  ∨ (s.ctrlPhase = 1 ∧ s.annotationStore = [annotStart cfg s.startedAt])
  ∨ (2 ≤ s.ctrlPhase ∧ ∃ t2 code, s.startedAt ≤ t2
      ∧ s.annotationStore = [annotStart cfg s.startedAt, annotDone cfg t2 code])

/-- Every step preserves annInv. -/
theorem step_annInv (cfg : ExecCfg) (s : ExecState) (e : Ev) (s2 : ExecState)
    (h : step cfg s e = some s2) (hP : annInv cfg s) : annInv cfg s2 := by
  cases e with
  | loopInit =>
      simp only [step] at h
      split at h
      · exact Option.noConfusion h
      · rw [Option.some_inj] at h
        subst h
        exact hP
  | tick =>
      simp only [step] at h
      split at h
      · rw [Option.some_inj] at h
        subst h
        exact hP
      · exact Option.noConfusion h
  | quitRecv =>
      simp only [step] at h
      split at h
      · rw [Option.some_inj] at h
        subst h
        exact hP
      · exact Option.noConfusion h
  | ctrlStart t =>
      simp only [step] at h
      split at h
      · rw [Option.some_inj] at h
        subst h
        rename_i hg
        rcases hP with ⟨h0, hstore⟩ | ⟨h1, _⟩ | ⟨h2, _⟩
        · refine Or.inr (Or.inl ⟨rfl, ?_⟩)
          show s.annotationStore ++ [annotStart cfg t] = [annotStart cfg t]
          rw [hstore]
          rfl
        · omega
        · omega
      · exact Option.noConfusion h
  | ctrlDone t code =>
      simp only [step] at h
      split at h
      · rw [Option.some_inj] at h
        subst h
        rename_i hg
        rcases hP with ⟨h0, _⟩ | ⟨h1, hstore⟩ | ⟨h2, _⟩
        · rw [hg.1] at h0
          exact Nat.noConfusion h0
        · refine Or.inr (Or.inr ⟨by norm_num, t, code, hg.2, ?_⟩)
          show s.annotationStore ++ [annotDone cfg t code]
              = [annotStart cfg s.startedAt, annotDone cfg t code]
          rw [hstore]
          rfl
        · rw [hg.1] at h2
          omega
      · exact Option.noConfusion h
  | ctrlQuit =>
      simp only [step] at h
      split at h
      · rw [Option.some_inj] at h
        subst h
        rename_i hg
        rcases hP with ⟨h0, _⟩ | ⟨h1, _⟩ | ⟨h2, t2, code, hle, hst⟩
        · rw [hg] at h0
          exact Nat.noConfusion h0
        · rw [hg] at h1
          omega
        · exact Or.inr (Or.inr ⟨by norm_num, t2, code, hle, hst⟩)
      · exact Option.noConfusion h

/-- Claim C6: every run of the Execution Controller in which the child
started and the wait completed (phase at least 2) leaves exactly two
annotations, the start annotation first ("Command started") and the done
annotation second ("Command done with status <code>"), in that order, with
the start time no later than the done time. -/
theorem controller_emits_start_done_pair (cfg : ExecCfg) (tr : List Ev) (s : ExecState)
    (h : run cfg initState tr = some s) (hdone : 2 ≤ s.ctrlPhase) :
    ∃ t1 t2 code, t1 ≤ t2
      ∧ s.annotationStore = [annotStart cfg t1, annotDone cfg t2 code]
      ∧ (annotStart cfg t1).text = "Command started"
      ∧ (annotDone cfg t2 code).text = "Command done with status " ++ toString code
      ∧ (annotStart cfg t1).time = t1 ∧ (annotDone cfg t2 code).time = t2 := by
  have hinv : annInv cfg s :=
    run_inv cfg (annInv cfg) (fun a b c hh hp => step_annInv cfg a b c hh hp)
      tr initState s h (Or.inl ⟨rfl, rfl⟩)
  rcases hinv with ⟨h0, _⟩ | ⟨h1, _⟩ | ⟨_, t2, code, hle, hst⟩
  · omega
  · omega
  · exact ⟨s.startedAt, t2, code, hle, hst, rfl, rfl, rfl, rfl⟩

/-- Witness for C6 on the instant-command scenario. -/
theorem controller_emits_start_done_pair_witness :
    run cfgW initState (trace5a ++ Ev.quitRecv :: [Ev.tick]) = some wstate5
    ∧ 2 ≤ wstate5.ctrlPhase
    ∧ ∃ t1 t2 code, t1 ≤ t2
      ∧ wstate5.annotationStore = [annotStart cfgW t1, annotDone cfgW t2 code]
      ∧ (annotStart cfgW t1).text = "Command started"
      ∧ (annotDone cfgW t2 code).text = "Command done with status " ++ toString code
      ∧ (annotStart cfgW t1).time = t1 ∧ (annotDone cfgW t2 code).time = t2 :=
  ⟨by decide, by decide,
   controller_emits_start_done_pair cfgW (trace5a ++ Ev.quitRecv :: [Ev.tick]) wstate5
     (by decide) (by decide)⟩

/-- Only a tick changes loopMs, and it adds exactly 1000. -/
theorem step_loopMs_char (cfg : ExecCfg) (s : ExecState) (e : Ev) (s2 : ExecState)
    (h : step cfg s e = some s2) :
    s2.loopMs = s.loopMs + (if isTick e then 1000 else 0) := by
  cases e with
  | loopInit =>
      simp only [step] at h
      split at h
      · exact Option.noConfusion h
      · rw [Option.some_inj] at h
        subst h
        simp [isTick]
  | tick =>
      simp only [step] at h
      split at h
      · rw [Option.some_inj] at h
        subst h
        simp [isTick]
      · exact Option.noConfusion h
  | quitRecv =>
      simp only [step] at h
      split at h
      · rw [Option.some_inj] at h
        subst h
        simp [isTick]
      · exact Option.noConfusion h
  | ctrlStart t =>
      simp only [step] at h
      split at h
      · rw [Option.some_inj] at h
        subst h
        simp [isTick]
      · exact Option.noConfusion h
  | ctrlDone t code =>
      simp only [step] at h
      split at h
      · rw [Option.some_inj] at h
        subst h
        simp [isTick]
      · exact Option.noConfusion h
  | ctrlQuit =>
      simp only [step] at h
      split at h
      · rw [Option.some_inj] at h
        subst h
        simp [isTick]
      · exact Option.noConfusion h

/-- loopMs equals its initial value plus 1000 per tick processed. -/
theorem run_loopMs (cfg : ExecCfg) :
    ∀ (tr : List Ev) (s0 s : ExecState), run cfg s0 tr = some s →
      s.loopMs = s0.loopMs + 1000 * (tr.countP isTick : Int) := by
  intro tr
  induction tr with
  | nil =>
      intro s0 s h
      rw [run, Option.some_inj] at h
      subst h
      simp
  | cons e es ih =>
      intro s0 s h
      cases hstep : step cfg s0 e with
      | none =>
          simp only [run, hstep] at h
          exact Option.noConfusion h
      | some s1 =>
          simp only [run, hstep] at h
          have h1 := ih s1 s h
          have h2 := step_loopMs_char cfg s0 e s1 hstep
          rw [h1, h2, List.countP_cons]
          by_cases he : isTick e = true
          · simp only [he, if_true]
            push_cast
            ring
          · simp only [he, if_false]
            push_cast
            ring

/-- Claim C9: the snapshot appended by the k-th timer tick carries
msSinceStart exactly 1000·k and timestamp exactly metricsStartTime +
1000·k — the nominal multiples of the cadence, independent of wall-clock
time, which the tick never consults. -/
theorem tick_snapshot_nominal_times (cfg : ExecCfg) (tr : List Ev) (s1 s2 : ExecState)
    (h1 : run cfg initState tr = some s1) (h2 : step cfg s1 Ev.tick = some s2) :
    ∃ st, s2.metricStore = s1.metricStore ++
      [{ cmdStatus := st,
         msSinceStart := 1000 * ((tr.countP isTick : Int) + 1),
         timestamp := cfg.startTime + 1000 * ((tr.countP isTick : Int) + 1) }] := by
  have hms2 : s1.loopMs = 1000 * (tr.countP isTick : Int) := by
    simpa [initState] using run_loopMs cfg tr initState s1 h1
  simp only [step] at h2
  split at h2
  · rw [Option.some_inj] at h2
    subst h2
    refine ⟨s1.commandState, ?_⟩
    show s1.metricStore ++ [collect cfg s1.commandState (s1.loopMs + 1000)] = _
    have hz : s1.loopMs + 1000 = 1000 * ((tr.countP isTick : Int) + 1) := by
      rw [hms2]
      ring
    rw [hz]
    rfl
  · exact Option.noConfusion h2

/-- State after the loop's initial collect from initState under cfgW. -/
def wstate9 : ExecState :=
  { commandState := 0, metricStore := [⟨0, 0, 0⟩], annotationStore := [],
    loopMs := 0, loopEntered := true, stopNext := false, loopDone := false,
    quitSent := false, ctrlPhase := 0, startedAt := 0 }

/-- State after one further tick. -/
def wstate9b : ExecState :=
  { commandState := 0, metricStore := [⟨0, 0, 0⟩, ⟨0, 1000, 1000⟩],
    annotationStore := [], loopMs := 1000, loopEntered := true,
    stopNext := false, loopDone := false, quitSent := false, ctrlPhase := 0,
    startedAt := 0 }

/-- Witness for C9: the first tick after the initial collect records
msSinceStart 1000 and timestamp metricsStartTime + 1000. -/
theorem tick_snapshot_nominal_times_witness :
    run cfgW initState [Ev.loopInit] = some wstate9
    ∧ step cfgW wstate9 Ev.tick = some wstate9b
    ∧ ∃ st, wstate9b.metricStore = wstate9.metricStore ++
        [{ cmdStatus := st,
           msSinceStart := 1000 * (([Ev.loopInit].countP isTick : Int) + 1),
           timestamp := cfgW.startTime + 1000 * (([Ev.loopInit].countP isTick : Int) + 1) }] :=
  ⟨by decide, by decide,
   tick_snapshot_nominal_times cfgW [Ev.loopInit] wstate9 wstate9b (by decide) (by decide)⟩

/-- The commandState determined by the controller phase. -/
def phaseStatus : Nat → Int
  | 0 => 0
  | 1 => 1
  | _ => 2

/-- Every step preserves the phase/commandState correspondence. -/
theorem step_phaseStatus (cfg : ExecCfg) (s : ExecState) (e : Ev) (s2 : ExecState)
    (h : step cfg s e = some s2)
    (hp : s.commandState = phaseStatus s.ctrlPhase) :
    s2.commandState = phaseStatus s2.ctrlPhase := by
  cases e with
  | loopInit =>
      simp only [step] at h
      split at h
      · exact Option.noConfusion h
      · rw [Option.some_inj] at h
        subst h
        exact hp
  | tick =>
      simp only [step] at h
      split at h
      · rw [Option.some_inj] at h
        subst h
        exact hp
      · exact Option.noConfusion h
  | quitRecv =>
      simp only [step] at h
      split at h
      · rw [Option.some_inj] at h
        subst h
        exact hp
      · exact Option.noConfusion h
  | ctrlStart t =>
      simp only [step] at h
      split at h
      · rw [Option.some_inj] at h
        subst h
        rfl
      · exact Option.noConfusion h
  | ctrlDone t code =>
      simp only [step] at h
      split at h
      · rw [Option.some_inj] at h
        subst h
        rfl
      · exact Option.noConfusion h
  | ctrlQuit =>
      simp only [step] at h
      split at h
      · rw [Option.some_inj] at h
        subst h
        rename_i hg
        show s.commandState = phaseStatus 3
        rw [hp, hg]
        rfl
      · exact Option.noConfusion h

/-- Each step either leaves commandState unchanged or is the phase-0 start
transition (to Running) or the phase-1 done transition (to Done). -/
theorem step_commandState_char (cfg : ExecCfg) (s : ExecState) (e : Ev) (s2 : ExecState)
    (h : step cfg s e = some s2) :
    s2.commandState = s.commandState
    ∨ (s.ctrlPhase = 0 ∧ s2.commandState = CommandStatusRunning)
    ∨ (s.ctrlPhase = 1 ∧ s2.commandState = CommandStatusDone) := by
  cases e with
  | loopInit =>
      simp only [step] at h
      split at h
      · exact Option.noConfusion h
      · rw [Option.some_inj] at h
        subst h
        exact Or.inl rfl
  | tick =>
      simp only [step] at h
      split at h
      · rw [Option.some_inj] at h
        subst h
        exact Or.inl rfl
      · exact Option.noConfusion h
  | quitRecv =>
      simp only [step] at h
      split at h
      · rw [Option.some_inj] at h
        subst h
        exact Or.inl rfl
      · exact Option.noConfusion h
  | ctrlStart t =>
      simp only [step] at h
      split at h
      · rw [Option.some_inj] at h
        subst h
        rename_i hg
        exact Or.inr (Or.inl ⟨hg, rfl⟩)
      · exact Option.noConfusion h
  | ctrlDone t code =>
      simp only [step] at h
      split at h
      · rw [Option.some_inj] at h
        subst h
        rename_i hg
        exact Or.inr (Or.inr ⟨hg.1, rfl⟩)
      · exact Option.noConfusion h
  | ctrlQuit =>
      simp only [step] at h
      split at h
      · rw [Option.some_inj] at h
        subst h
        exact Or.inl rfl
      · exact Option.noConfusion h

/-- Claim C10: along any reachable execution, each step leaves commandState
unchanged or advances it along Pending(0) → Running(1) → Done(2), never
decreasing it; and the server role's cmdStarted / cmdFinished flags are
only ever set from false to true, never reset. -/
theorem command_state_and_sync_flags_monotone :
    (∀ (cfg : ExecCfg) (tr : List Ev) (s : ExecState), run cfg initState tr = some s →
        ∀ (e : Ev) (s2 : ExecState), step cfg s e = some s2 →
          s.commandState ≤ s2.commandState)
    ∧ (∀ (st : SyncState) (e : SyncEv),
        (st.cmdStarted = true → (serverStep st e).1.cmdStarted = true)
        ∧ (st.cmdFinished = true → (serverStep st e).1.cmdFinished = true)) := by
  constructor
  · intro cfg tr s h e s2 h2
    have hps : s.commandState = phaseStatus s.ctrlPhase :=
      run_inv cfg (fun x => x.commandState = phaseStatus x.ctrlPhase)
        (fun a b c hh hp => step_phaseStatus cfg a b c hh hp) tr initState s h rfl
    rcases step_commandState_char cfg s e s2 h2 with hsame | ⟨hph, hrun⟩ | ⟨hph, hrun⟩
    · rw [hsame]
    · rw [hps, hph, hrun]
      norm_num [phaseStatus, CommandStatusRunning]
    · rw [hps, hph, hrun]
      norm_num [phaseStatus, CommandStatusDone]
  · intro st e
    cases e with
    | startReq =>
        by_cases hs : st.cmdStarted <;> simp [serverStep, hs]
    | stopReq =>
        by_cases hs : st.cmdStarted <;> by_cases hf : st.cmdFinished <;>
          simp [serverStep, hs, hf]
    | complete =>
        by_cases hs : st.cmdStarted <;> simp [serverStep, hs]

/-- State of the controller after the phase-0 start transition under cfgW. -/
def wstart : ExecState :=
  { commandState := 1, metricStore := [⟨1, 0, 0⟩],
    annotationStore := [annotStart cfgW 0], loopMs := 0, loopEntered := false,
    stopNext := false, loopDone := false, quitSent := false, ctrlPhase := 1,
    startedAt := 0 }

/-- Witness for C10 at the concrete start transition and a concrete
started server state. -/
theorem command_state_and_sync_flags_monotone_witness :
    initState.commandState ≤ wstart.commandState
    ∧ (serverStep { cmdStarted := true, cmdFinished := false } SyncEv.complete).1.cmdStarted
        = true :=
  ⟨command_state_and_sync_flags_monotone.1 cfgW [] initState rfl (Ev.ctrlStart 0) wstart
     (by decide),
   (command_state_and_sync_flags_monotone.2 { cmdStarted := true, cmdFinished := false }
     SyncEv.complete).1 rfl⟩

/-- Claim C8: in the client role, a transport-level failure of the initial
start notification terminates the process fatally with exit code 1 before
the Execution Controller is invoked, so the child is never spawned and no
sampling begins, whatever the stop-sync configuration. -/
theorem client_transport_failure_no_spawn (stopPost : PostResult) (syncStop : Bool) :
    (syncStartCommand PostResult.transportError stopPost syncStop).commandStarted = false
    ∧ (syncStartCommand PostResult.transportError stopPost syncStop).exitedFatally = true
    ∧ (syncStartCommand PostResult.transportError stopPost syncStop).exitCode = some 1 :=
  ⟨rfl, rfl, rfl⟩

end Statexec
